import Mathlib

/-
Verification of the IQR (Interactive Query Refinement) session engine of
SMQTK's web search app, as exposed by
`src/python/smqtk/web/search_app/modules/iqr/iqr_search.py`.

The route layer in that file is embedded directly.  The `IqrSession` /
`IqrController` methods it calls live in `smqtk.iqr.iqr_session` (not part of
the reviewed sources), so those operations are modelled from the
specification's description of them; each such definition carries a
`Modelled from the spec:` doc comment naming what is missing.

Identifiers (UUIDs) are modelled as naturals, probabilities as rationals.
-/

/-- Opaque stable identifiers (UUIDs) of data / descriptor elements. -/
abbrev Uid := ℕ

/-- A descriptor element: identifier plus fixed-dimension numeric vector. -/
structure Descriptor where
  duuid : Uid
  vec : List ℚ
  deriving DecidableEq

/-- A raw data element (uploaded example data); only its uuid matters here. -/
structure DataElem where
  euuid : Uid
  deriving DecidableEq

/-- Modelled from the spec: the in-memory state of an `IqrSession`
(`smqtk.iqr.iqr_session`, not under the reviewed sources) — session uuid, the
positive/negative adjudication identifier sets, the working-index membership,
the seed-neighbor count, and the most recent ordered ranking result (None
until the first refine). -/
structure IqrSessionState where
  suuid : Uid
  posSeedNeighbors : ℕ
  positives : Finset Uid
  negatives : Finset Uid
  workingIndex : Finset Uid
  results : Option (List (Uid × ℚ))
  deriving DecidableEq

/-- Modelled from the spec: a fresh `IqrSession(pos_seed_neighbors, config, sid)`
as constructed by `get_current_iqr_session` — the web layer passes the external
session key `sid` as the session's uuid; all state starts empty. -/
def initSession (k : ℕ) (sid : Uid) : IqrSessionState :=
  { suuid := sid
    posSeedNeighbors := k
    positives := ∅
    negatives := ∅
    workingIndex := ∅
    results := none }

/-- Modelled from the spec: the set calculus of `IqrSession.adjudicate`
(not under the reviewed sources), per the spec's adjudication contract:
removals are applied first, then positive additions, then negative additions;
adding an identifier to one set removes it from the other. -/
def adjudicateSets (p n newP newN rmP rmN : Finset Uid) : Finset Uid × Finset Uid :=
  let p1 := p \ rmP
  let n1 := n \ rmN
  let p2 := p1 ∪ newP
  let n2 := n1 \ newP
  let n3 := n2 ∪ newN
  let p3 := p2 \ newN
  (p3, n3)

/-- One adjudicate call's four identifier sets, in the source's argument order
`(new_positives, new_negatives, un_positives, un_negatives)`. -/
structure AdjCall where
  newPos : Finset Uid
  newNeg : Finset Uid
  rmPos : Finset Uid
  rmNeg : Finset Uid
  deriving DecidableEq

/-- Modelled from the spec: `IqrSession.adjudicate` applied to a session state
(adjudication has no side effect on working-index membership or results). -/
def IqrSessionState.adjudicate (s : IqrSessionState) (c : AdjCall) : IqrSessionState :=
  let pn := adjudicateSets s.positives s.negatives c.newPos c.newNeg c.rmPos c.rmNeg
  { s with positives := pn.1, negatives := pn.2 }

/-- Fold a finite sequence of adjudicate calls over a session state. -/
def applyAdjudications (s : IqrSessionState) (calls : List AdjCall) : IqrSessionState :=
  calls.foldl IqrSessionState.adjudicate s

/-- Embeds route `get_index_adjudication` (iqr_search.py L564-593): reports
whether the queried uuid is among the session's positive descriptors and
whether it is among the negative descriptors. -/
def get_index_adjudication (s : IqrSessionState) (elemUuid : Uid) : Bool × Bool :=
  (decide (elemUuid ∈ s.positives), decide (elemUuid ∈ s.negatives))

/-- Modelled from the spec: `IqrSession.update_working_index(nn_index)`
(not under the reviewed sources), per the spec's seed-and-expand contract:
for each positive exemplar, query the nearest-neighbor index for its
`pos_seed_neighbors` nearest neighbors (including itself) and union the
returned identifiers into the working index with set semantics; the previous
working-index contents are discarded (full rebuild).  The external NN index is
the parameter `nn` (identifier of a positive ↦ identifier set returned by its
query); `nnReady` is false when the NN index is unpopulated.  Fails with an
initialization error when there are no positives or the index is unpopulated,
leaving the state unchanged. -/
def update_working_index (s : IqrSessionState) (nnReady : Bool)
    (nn : Uid → Finset Uid) : Except String IqrSessionState :=
  if s.positives = ∅ then
    .error "InitializationFailure: no positive descriptors to query the NN index with"
  else if nnReady = false then
    .error "InitializationFailure: nearest-neighbor index is unpopulated"
  else
    .ok { s with workingIndex := s.positives.biUnion nn }

/-- The order the spec imposes on ordered-result entries: descending
probability, with equal probabilities broken by ascending identifier. -/
def resultOrder (a b : Uid × ℚ) : Prop :=
  b.2 < a.2 ∨ (a.2 = b.2 ∧ a.1 ≤ b.1)

instance : DecidableRel resultOrder := fun a b => by
  unfold resultOrder
  exact inferInstance

instance : IsTotal (Uid × ℚ) resultOrder := by
  constructor
  intro a b
  rcases lt_trichotomy a.2 b.2 with h | h | h
  · exact Or.inr (Or.inl h)
  · rcases Nat.le_total a.1 b.1 with h1 | h1
    · exact Or.inl (Or.inr ⟨h, h1⟩)
    · exact Or.inr (Or.inr ⟨h.symm, h1⟩)
  · exact Or.inl (Or.inl h)

instance : IsTrans (Uid × ℚ) resultOrder := by
  constructor
  intro a b c hab hbc
  rcases hab with h1 | ⟨h1, h1'⟩
  · rcases hbc with h2 | ⟨h2, _⟩
    · exact Or.inl (h2.trans h1)
    · exact Or.inl (lt_of_eq_of_lt h2.symm h1)
  · rcases hbc with h2 | ⟨h2, h2'⟩
    · exact Or.inl (lt_of_lt_of_eq h2 h1.symm)
    · exact Or.inr ⟨h1.trans h2, le_trans h1' h2'⟩

/-- Ascending enumeration of a finite identifier set; stands in for the
deterministic key order of the working-index mapping. -/
def ascUids (s : Finset Uid) : List Uid :=
  (List.range (s.sup id + 1)).filter (fun i => decide (i ∈ s))

/-- Modelled from the spec: the ordered-result construction inside
`IqrSession.refine` (not under the reviewed sources) — every working-index
identifier is paired with its ranker probability and the pairs are sorted by
descending probability, ties broken by ascending identifier. -/
def rankWorkingIndex (wi : Finset Uid) (score : Uid → ℚ) : List (Uid × ℚ) :=
  List.insertionSort resultOrder ((ascUids wi).map (fun i => (i, score i)))

/-- Modelled from the spec: `IqrSession.refine` (not under the reviewed
sources): requires at least one positive and a non-empty working index
(otherwise an InsufficientLabels error, no state change); runs the external
relevancy ranker `rank` on the current labels and pool (`.error` is the ranker
raising, surfaced as a RankingFailure with no state change); on success stores
the sorted ordered result, replacing the previous one. -/
def IqrSessionState.refine (s : IqrSessionState)
    (rank : Finset Uid → Finset Uid → Finset Uid → Except String (Uid → ℚ)) :
    Except String IqrSessionState :=
  if s.positives = ∅ then
    .error "InsufficientLabels: no positive adjudications"
  else if s.workingIndex = ∅ then
    .error "InsufficientLabels: working index is empty"
  else
    match rank s.positives s.negatives s.workingIndex with
    | .error e => .error ("RankingFailure: " ++ e)
    | .ok score => .ok { s with results := some (rankWorkingIndex s.workingIndex score) }

/-- A concrete session used to witness refine-related claims: one positive
adjudication `1`, working index `{1, 2}`. -/
def exRefineSession : IqrSessionState :=
  { initSession 500 0 with positives := {1}, workingIndex := {1, 2} }

/-- A concrete deterministic ranker used in witnesses: scores identifier `1`
at 9 and everything else at 4. -/
def exRank : Finset Uid → Finset Uid → Finset Uid → Except String (Uid → ℚ) :=
  fun _ _ _ => .ok (fun i => if i = 1 then 9 else 4)

/-- A structured JSON result (success flag plus message) as returned by the
route handlers. -/
structure JsonResult where
  success : Bool
  message : String
  deriving DecidableEq

/-- Outcome of a route handler invocation: a returned response, or an uncaught
exception propagating out of the handler. -/
inductive Outcome (α : Type) where
  | ok : α → Outcome α
  | raised : String → Outcome α
  deriving DecidableEq

/-- Embeds route `iqr_initialize` (iqr_search.py L519-538): runs
`iqrs.update_working_index(self._nn_index)` inside try/except; success yields
a success=True result, any exception is caught and reported as a
success=False result carrying the error text, with the session state
unchanged. -/
def iqr_initialize_route (s : IqrSessionState) (nnReady : Bool) (nn : Uid → Finset Uid) :
    Outcome JsonResult × IqrSessionState :=
  match update_working_index s nnReady nn with
  | .ok s' => (.ok { success := true, message := "Completed initialization" }, s')
  | .error e => (.ok { success := false, message := "ERROR: " ++ e }, s)

/-- Embeds route `iqr_refine` (iqr_search.py L643-665): runs `iqrs.refine()`
inside try/except; any exception is caught and reported as a success=False
result, leaving the session state (including any previously stored ordered
result) unchanged. -/
def iqr_refine (s : IqrSessionState)
    (rank : Finset Uid → Finset Uid → Finset Uid → Except String (Uid → ℚ)) :
    Outcome JsonResult × IqrSessionState :=
  match s.refine rank with
  | .ok s' => (.ok { success := true, message := "Completed refinement" }, s')
  | .error e => (.ok { success := false, message := "ERROR: " ++ e }, s)

/-- Embeds route `adjudicate` (iqr_search.py L595-641): the four uuid lists of
the request are resolved to descriptors through the working index
(`get_many_descriptors`); per the descriptor-store contract an identifier not
in the working index fails NotFound, and because this route has no try/except
the failure propagates out of the handler (`.raised`) with no adjudication
applied.  When every identifier resolves, the session adjudicates
(new positives, new negatives, removals) and the route reports success. -/
def adjudicate_route (s : IqrSessionState) (posAdd negAdd posRm negRm : List Uid) :
    Outcome JsonResult × IqrSessionState :=
  if (posAdd ++ negAdd ++ posRm ++ negRm).all (fun i => decide (i ∈ s.workingIndex)) then
    (.ok { success := true, message := "Adjudicated" },
     s.adjudicate ⟨posAdd.toFinset, negAdd.toFinset, posRm.toFinset, negRm.toFinset⟩)
  else
    (.raised "KeyError: descriptor uuid not in working index", s)

/-- The per-session web-app state the routes touch: the session itself plus
this session's slots of the app's example-data map (`_iqr_example_data`) and
example-descriptor map (`_iqr_example_pos_descr`). -/
structure AppSessionState where
  sess : IqrSessionState
  exampleData : List (Uid × DataElem)
  examplePosDescr : List (Uid × Descriptor)
  deriving DecidableEq

/-- Embeds route `iqr_ingest_file` (iqr_search.py L465-517): the uploaded file
becomes a data element that is recorded in the example-data map BEFORE
descriptor computation is attempted; `compute_descriptor` (the external
descriptor generator) raising ValueError is answered with an "Input Error"
response (HTTP 400) — the example-data insertion already performed; on
success the descriptor is recorded in the example-descriptor map and
adjudicated as a new positive.  Filesystem moves and upload-module
bookkeeping are outside the modelled state. -/
def iqr_ingest_file (st : AppSessionState) (upload : DataElem)
    (compute : DataElem → Except String Descriptor) :
    Except String Uid × AppSessionState :=
  let u := upload.euuid
  let st1 : AppSessionState := { st with exampleData := (u, upload) :: st.exampleData }
  match compute upload with
  | .error e => (.error ("Input Error: " ++ e), st1)
  | .ok d =>
      (.ok u,
       { st1 with
         examplePosDescr := (u, d) :: st1.examplePosDescr,
         sess := st1.sess.adjudicate ⟨{d.duuid}, ∅, ∅, ∅⟩ })

/-- A fresh app-session state over a fresh session, used concretely. -/
def exApp0 : AppSessionState :=
  { sess := initSession 500 0, exampleData := [], examplePosDescr := [] }

/-- Modelled from the spec: `IqrSession.ordered_results` (not under the
reviewed sources) — the stored ordered (identifier, probability) sequence, or
None when no refinement has stored one. -/
def IqrSessionState.ordered_results (s : IqrSessionState) : Option (List (Uid × ℚ)) :=
  s.results

/-- Python sequence-index normalization of one slice bound: a negative index
counts from the end (clamped at 0), a non-negative one is clamped to the
length. -/
def pyIndex (len : ℕ) (k : ℤ) : ℕ :=
  if k < 0 then ((len : ℤ) + k).toNat else min k.toNat len

/-- Python step-1 slice `l[i:j]`: the elements at positions
`[pyIndex len i, pyIndex len j)`. -/
def pySlice {α : Type} (i j : ℤ) (l : List α) : List α :=
  (l.take (pyIndex l.length j)).drop (pyIndex l.length i)

/-- Embeds route `get_ordered_results` (iqr_search.py L667-690): `i` defaults
to 0 and `j` to the number of stored results (0 when none); returns
`(iqrs.ordered_results() or ())[i:j]` with Python slice semantics. -/
def get_ordered_results (s : IqrSessionState) (i j : Option ℤ) : List (Uid × ℚ) :=
  let r := s.ordered_results.getD []
  pySlice (i.getD 0) (j.getD (r.length : ℤ)) r

/-- The slice operation exactly as the claim's words describe it: the entries
at the positions in `[i, j)` clipped to the available length (positions are
non-negative, so a negative bound contributes no positions). -/
def claimSlice {α : Type} (i j : ℤ) (l : List α) : List α :=
  (l.take j.toNat).drop i.toNat

/-- A session holding a two-entry stored ordered result, used concretely. -/
def exResultsSession : IqrSessionState :=
  { exRefineSession with results := some [(1, 9), (2, 4)] }

/-- Modelled from the spec: `IqrSession.reset` (not under the reviewed
sources): clears the adjudication sets, the working index and the stored
ordered result; the session identifier is untouched. -/
def IqrSessionState.reset (s : IqrSessionState) : IqrSessionState :=
  { s with positives := ∅, negatives := ∅, workingIndex := ∅, results := none }

/-- Embeds route `reset_iqr_session` (iqr_search.py L692-712): resets the
session, clears this session's example-data and example-descriptor maps
(the work-directory cleanup is filesystem-only, outside the model) and
reports success. -/
def reset_iqr_session (st : AppSessionState) : JsonResult × AppSessionState :=
  ({ success := true, message := "" },
   { sess := st.sess.reset, exampleData := [], examplePosDescr := [] })

/-- Embeds route `get_random_uids` (iqr_search.py L714-732): lists the
working-index keys and shuffles them; `random.shuffle` (Python stdlib,
external) is modelled by its contract as a caller-supplied
permutation-producing function `sh`.  Only working-index keys enter the
list — the session's example data is not consulted. -/
def get_random_uids (s : IqrSessionState) (sh : List Uid → List Uid) : List Uid :=
  sh (ascUids s.workingIndex)

/-- Modelled from the spec: the `IqrController` registry state (not under the
reviewed sources) — the mapping from session uuid (the external session key)
to session that the registry lock guards. -/
structure ControllerState where
  sessions : List (Uid × IqrSessionState)
  deriving DecidableEq

/-- Modelled from the spec: `IqrController.has_session_uuid`. -/
def ControllerState.hasSessionUuid (c : ControllerState) (sid : Uid) : Bool :=
  (c.sessions.lookup sid).isSome

/-- Modelled from the spec: `IqrController.add_session`, registering a session
under its uuid. -/
def ControllerState.addSession (c : ControllerState) (s : IqrSessionState) :
    ControllerState :=
  ⟨(s.suuid, s) :: c.sessions⟩

/-- Modelled from the spec: `IqrController.get_session`. -/
def ControllerState.getSession (c : ControllerState) (sid : Uid) :
    Option IqrSessionState :=
  c.sessions.lookup sid

/-- Embeds `get_current_iqr_session` (iqr_search.py L761-784): under the
controller (registry) lock — which makes the whole lookup-or-create step one
atomic step — if no session is registered for the flask session id `sid`, a
fresh `IqrSession(pos_seed_neighbors, config, sid)` is constructed and added;
finally the session registered under `sid` is returned.  (The route also
creates the session's work directory and empty example maps; that filesystem
part is outside this model.) -/
def get_current_iqr_session (c : ControllerState) (k : ℕ) (sid : Uid) :
    Option IqrSessionState × ControllerState :=
  let c' := if c.hasSessionUuid sid then c else c.addSession (initSession k sid)
  (c'.getSession sid, c')

/-- Lock acquisition and release events for the two mutual-exclusion scopes:
the controller (registry) lock and a session's own lock. -/
inductive LockEv where
  | acqReg
  | relReg
  | acqSess
  | relSess
  deriving DecidableEq

/-- Embeds the lock structure every session route of iqr_search.py follows:
`with self.get_current_iqr_session() as iqrs:` first evaluates the call,
whose body holds the registry lock (`with self._iqr_controller:`) and
releases it on return; only then is the session's own lock acquired, held
for the route body, and released when the block ends. -/
def sessionOpLockTrace : List LockEv := [.acqReg, .relReg, .acqSess, .relSess]

/-- Whether the registry lock is held after the events of `t`. -/
def regHeld (t : List LockEv) : Bool :=
  t.foldl (fun h e =>
    match e with
    | .acqReg => true
    | .relReg => false
    | _ => h) false

/-- Whether the session lock is held after the events of `t`. -/
def sessHeld (t : List LockEv) : Bool :=
  t.foldl (fun h e =>
    match e with
    | .acqSess => true
    | .relSess => false
    | _ => h) false


theorem adjudicateSets_disjoint (p n newP newN rmP rmN : Finset Uid)
    (h : Disjoint p n) :
    Disjoint (adjudicateSets p n newP newN rmP rmN).1
      (adjudicateSets p n newP newN rmP rmN).2 := by
  rw [Finset.disjoint_left]
  intro a ha hb
  simp only [adjudicateSets, Finset.mem_sdiff, Finset.mem_union] at ha hb
  rcases ha with ⟨ha1, ha2⟩
  rcases hb with hb1 | hb2
  · rcases hb1 with ⟨⟨hn, _⟩, hnp⟩
    rcases ha1 with hp | hp
    · exact (Finset.disjoint_left.mp h hp.1) hn
    · exact hnp hp
  · exact ha2 hb2

theorem adjudicate_disjoint (s : IqrSessionState) (c : AdjCall)
    (h : Disjoint s.positives s.negatives) :
    Disjoint (s.adjudicate c).positives (s.adjudicate c).negatives :=
  adjudicateSets_disjoint s.positives s.negatives c.newPos c.newNeg c.rmPos c.rmNeg h

theorem applyAdjudications_disjoint (s : IqrSessionState) (calls : List AdjCall)
    (h : Disjoint s.positives s.negatives) :
    Disjoint (applyAdjudications s calls).positives
      (applyAdjudications s calls).negatives := by
  induction calls generalizing s with
  | nil => exact h
  | cons c cs ih =>
    exact ih (s.adjudicate c) (adjudicate_disjoint s c h)

/-- Claim C3: starting from the initial session state, after any finite
sequence of adjudicate calls the positive and negative identifier sets are
disjoint (hence at every observation point, since every prefix is itself such
a sequence); the index-adjudication query never reports an identifier as both
positive and negative; and within a single call, an identifier added to the
negative set is removed from the positive set, while an identifier added only
to the positive set is absent from the negative set. -/
theorem C3_adjudication_disjoint (k sid : ℕ) (calls : List AdjCall) (u : Uid)
    (s : IqrSessionState) (c : AdjCall) :
    Disjoint (applyAdjudications (initSession k sid) calls).positives
      (applyAdjudications (initSession k sid) calls).negatives ∧
    ¬((get_index_adjudication (applyAdjudications (initSession k sid) calls) u).1 = true ∧
      (get_index_adjudication (applyAdjudications (initSession k sid) calls) u).2 = true) ∧
    Disjoint (s.adjudicate c).positives c.newNeg ∧
    Disjoint (s.adjudicate c).negatives (c.newPos \ c.newNeg) := by
  have hd : Disjoint (applyAdjudications (initSession k sid) calls).positives
      (applyAdjudications (initSession k sid) calls).negatives := by
    apply applyAdjudications_disjoint
    simp [initSession]
  refine ⟨hd, ?_, ?_, ?_⟩
  · rintro ⟨h1, h2⟩
    simp only [get_index_adjudication, decide_eq_true_eq] at h1 h2
    exact (Finset.disjoint_left.mp hd h1) h2
  · rw [Finset.disjoint_left]
    intro a ha hb
    simp only [IqrSessionState.adjudicate, adjudicateSets, Finset.mem_sdiff] at ha
    exact ha.2 hb
  · rw [Finset.disjoint_left]
    intro a ha hb
    simp only [IqrSessionState.adjudicate, adjudicateSets, Finset.mem_sdiff,
      Finset.mem_union] at ha hb
    rcases ha with ⟨_, hnp⟩ | hn
    · exact hnp hb.1
    · exact hb.2 hn

/-- Claim C4: with `P ≥ 1` positives and every NN query returning exactly
`K = pos_seed_neighbors` identifiers, initialize succeeds and the resulting
working index has size in `[K, K*P]`; the result discards any previous
working-index contents (same result from any prior contents `w`), and
re-running on the result reproduces it (deterministic, idempotent). -/
theorem C4_initialize_size (s : IqrSessionState) (nn : Uid → Finset Uid)
    (hP : s.positives.Nonempty)
    (hK : ∀ i ∈ s.positives, (nn i).card = s.posSeedNeighbors) :
    ∃ s', update_working_index s true nn = .ok s' ∧
      s.posSeedNeighbors ≤ s'.workingIndex.card ∧
      s'.workingIndex.card ≤ s.posSeedNeighbors * s.positives.card ∧
      (∀ w, update_working_index { s with workingIndex := w } true nn
        = .ok { s with workingIndex := s'.workingIndex }) ∧
      update_working_index s' true nn = .ok s' := by
  have hne : ¬s.positives = ∅ := by
    intro h0
    rw [h0] at hP
    exact Finset.not_nonempty_empty hP
  refine ⟨{ s with workingIndex := s.positives.biUnion nn }, ?_, ?_, ?_, ?_, ?_⟩
  · simp [update_working_index, hne]
  · obtain ⟨p, hp⟩ := hP
    calc s.posSeedNeighbors = (nn p).card := (hK p hp).symm
      _ ≤ (s.positives.biUnion nn).card :=
          Finset.card_le_card (Finset.subset_biUnion_of_mem nn hp)
  · calc (s.positives.biUnion nn).card
        ≤ ∑ i ∈ s.positives, (nn i).card := Finset.card_biUnion_le
      _ = ∑ _i ∈ s.positives, s.posSeedNeighbors := Finset.sum_congr rfl hK
      _ = s.positives.card * s.posSeedNeighbors := by
          rw [Finset.sum_const, smul_eq_mul]
      _ = s.posSeedNeighbors * s.positives.card := Nat.mul_comm _ _
  · intro w
    simp [update_working_index, hne]
  · simp [update_working_index, hne]

/-- Witness for C4 at a concrete input: one positive `{5}`, `K = 2`, the NN
query for it returning `{5, 7}`. -/
theorem C4_initialize_size_witness :
    ∃ s', update_working_index
        { initSession 2 0 with positives := {5} } true (fun _ => {5, 7}) = .ok s' ∧
      ({ initSession 2 0 with positives := {5} } : IqrSessionState).posSeedNeighbors
        ≤ s'.workingIndex.card ∧
      s'.workingIndex.card
        ≤ ({ initSession 2 0 with positives := {5} } : IqrSessionState).posSeedNeighbors *
          ({ initSession 2 0 with positives := {5} } : IqrSessionState).positives.card ∧
      (∀ w, update_working_index
          { ({ initSession 2 0 with positives := {5} } : IqrSessionState) with
            workingIndex := w } true (fun _ => {5, 7})
        = .ok { ({ initSession 2 0 with positives := {5} } : IqrSessionState) with
                workingIndex := s'.workingIndex }) ∧
      update_working_index s' true (fun _ => {5, 7}) = .ok s' :=
  C4_initialize_size { initSession 2 0 with positives := {5} } (fun _ => {5, 7})
    ⟨5, by decide⟩ (by decide)

theorem ascUids_mem (s : Finset Uid) (i : Uid) : i ∈ ascUids s ↔ i ∈ s := by
  simp only [ascUids, List.mem_filter, List.mem_range, decide_eq_true_eq]
  constructor
  · exact fun h => h.2
  · intro h
    refine ⟨?_, h⟩
    have h2 := Finset.le_sup (f := id) h
    exact Nat.lt_succ_of_le h2

theorem ascUids_nodup (s : Finset Uid) : (ascUids s).Nodup :=
  (List.nodup_range _).filter _

/-- Claim C5: whenever refine succeeds, the stored ordered result is a list of
(identifier, probability) pairs whose identifiers are exactly the working
index (a permutation of its sorted identifier list), arranged so that
probabilities are non-increasing and equal-probability entries appear in
ascending identifier order; the result is a pure function of session and
ranker, hence deterministic for a deterministic ranker. -/
theorem C5_refine_sorted (s s' : IqrSessionState)
    (rank : Finset Uid → Finset Uid → Finset Uid → Except String (Uid → ℚ))
    (h : s.refine rank = .ok s') :
    ∃ r, s'.results = some r ∧
      List.Sorted resultOrder r ∧
      (r.map Prod.fst).Perm (ascUids s.workingIndex) ∧
      (∀ u, u ∈ r.map Prod.fst ↔ u ∈ s.workingIndex) := by
  rw [IqrSessionState.refine] at h
  split at h
  · cases h
  · split at h
    · cases h
    · split at h
      · cases h
      · rename_i score heq
        injection h with h'
        subst h'
        refine ⟨rankWorkingIndex s.workingIndex score, rfl,
          List.sorted_insertionSort resultOrder _, ?_, ?_⟩
        · have hp := (List.perm_insertionSort resultOrder
            ((ascUids s.workingIndex).map (fun i => (i, score i)))).map Prod.fst
          rw [rankWorkingIndex]
          simpa [List.map_map, Function.comp_def] using hp
        · intro u
          have hp := (List.perm_insertionSort resultOrder
            ((ascUids s.workingIndex).map (fun i => (i, score i)))).map Prod.fst
          rw [rankWorkingIndex]
          rw [List.Perm.mem_iff hp]
          simp [List.map_map, Function.comp_def, ascUids_mem]

/-- Witness for C5 at a concrete input: refining `exRefineSession` with
`exRank` succeeds and stores `[(1, 9), (2, 4)]`. -/
theorem C5_refine_sorted_witness :
    ∃ r, ({ exRefineSession with
            results := some [(1, 9), (2, 4)] } : IqrSessionState).results = some r ∧
      List.Sorted resultOrder r ∧
      (r.map Prod.fst).Perm (ascUids exRefineSession.workingIndex) ∧
      (∀ u, u ∈ r.map Prod.fst ↔ u ∈ exRefineSession.workingIndex) :=
  C5_refine_sorted exRefineSession
    { exRefineSession with results := some [(1, 9), (2, 4)] } exRank (by rfl)

/-- Claim C1 counterexample: on a fresh session (empty working index) the
adjudicate operation called with the unresolvable identifier 1 propagates an
exception out of the handler instead of returning a structured NotFound
failure result. -/
theorem C1_counterexample :
    (adjudicate_route (initSession 500 0) [1] [] [] []).1
      = Outcome.raised "KeyError: descriptor uuid not in working index" := by
  decide

/-- Claim C1 (amended): initialize and refine recover every session-operation
failure at the operation boundary and report it as a structured result
(success flag plus message), never letting it propagate; adjudicate, however,
has no such recovery — whenever any supplied identifier cannot be resolved
through the working index, the failure propagates out of the handler as a
raised exception rather than a structured NotFound result. -/
theorem C1_failures_recovered (s : IqrSessionState) (nnReady : Bool)
    (nn : Uid → Finset Uid)
    (rank : Finset Uid → Finset Uid → Finset Uid → Except String (Uid → ℚ))
    (pa na pr nr : List Uid) (i : Uid)
    (hi : i ∈ pa ++ na ++ pr ++ nr) (hmiss : i ∉ s.workingIndex) :
    (∃ r, (iqr_initialize_route s nnReady nn).1 = Outcome.ok r) ∧
    (∃ r, (iqr_refine s rank).1 = Outcome.ok r) ∧
    (adjudicate_route s pa na pr nr).1
      = Outcome.raised "KeyError: descriptor uuid not in working index" := by
  refine ⟨?_, ?_, ?_⟩
  · rw [iqr_initialize_route]
    cases update_working_index s nnReady nn with
    | ok s' => exact ⟨_, rfl⟩
    | error e => exact ⟨_, rfl⟩
  · rw [iqr_refine]
    cases s.refine rank with
    | ok s' => exact ⟨_, rfl⟩
    | error e => exact ⟨_, rfl⟩
  · rw [adjudicate_route]
    have hall : ((pa ++ na ++ pr ++ nr).all
        (fun i => decide (i ∈ s.workingIndex))) = false := by
      rw [List.all_eq_false]
      exact ⟨i, hi, by simpa using hmiss⟩
    rw [hall]
    simp

/-- Witness for C1 (amended) at concrete inputs: a fresh session, an unready
NN index, a failing-precondition refine, and an adjudication adding the
unresolvable identifier 1 as a negative. -/
theorem C1_failures_recovered_witness :
    (∃ r, (iqr_initialize_route (initSession 500 3) false (fun _ => ∅)).1
        = Outcome.ok r) ∧
    (∃ r, (iqr_refine (initSession 500 3) exRank).1 = Outcome.ok r) ∧
    (adjudicate_route (initSession 500 3) [] [1] [] []).1
      = Outcome.raised "KeyError: descriptor uuid not in working index" :=
  C1_failures_recovered (initSession 500 3) false (fun _ => ∅) exRank
    [] [1] [] [] 1 (by decide) (by decide)

/-- Claim C2 counterexample: ingesting example data whose descriptor
computation fails leaves the session's observable in-memory state changed —
the uploaded element was inserted into the example-data map before the
failure — so the state after the failed call differs from the state before
it. -/
theorem C2_counterexample :
    (iqr_ingest_file exApp0 ⟨7⟩ (fun _ => .error "bad input")).2 ≠ exApp0 := by
  decide

/-- Claim C2 (amended): a failed operation leaves the session's adjudication
sets, working index, example-descriptor map and stored ordered result
unchanged, EXCEPT that a failed ingest has already inserted the uploaded
element into the example-data map (exactly that one insertion; the session
and the example-descriptor map are untouched and the handler reports an
input error); failed refine and failed initialize leave the whole session
state unchanged, refine in particular not clearing a previously stored
ordered result. -/
theorem C2_state_on_failure (st : AppSessionState) (upload : DataElem) (e : String)
    (s2 s3 : IqrSessionState) (nnReady : Bool) (nn : Uid → Finset Uid)
    (rank : Finset Uid → Finset Uid → Finset Uid → Except String (Uid → ℚ))
    (err2 err3 : String)
    (href : s2.refine rank = .error err2)
    (hini : update_working_index s3 nnReady nn = .error err3) :
    (iqr_ingest_file st upload (fun _ => .error e)).2.sess = st.sess ∧
    (iqr_ingest_file st upload (fun _ => .error e)).2.examplePosDescr
      = st.examplePosDescr ∧
    (iqr_ingest_file st upload (fun _ => .error e)).2.exampleData
      = (upload.euuid, upload) :: st.exampleData ∧
    (iqr_ingest_file st upload (fun _ => .error e)).1
      = .error ("Input Error: " ++ e) ∧
    (iqr_refine s2 rank).2 = s2 ∧
    (iqr_refine s2 rank).2.results = s2.results ∧
    (iqr_initialize_route s3 nnReady nn).2 = s3 := by
  refine ⟨rfl, rfl, rfl, rfl, ?_, ?_, ?_⟩
  · rw [iqr_refine, href]
  · rw [iqr_refine, href]
  · rw [iqr_initialize_route, hini]

/-- Witness for C2 (amended) at concrete inputs: the fresh app state, an
upload with uuid 7 whose descriptor computation fails, and fresh sessions on
which refine and initialize fail for lack of positives. -/
theorem C2_state_on_failure_witness :
    (iqr_ingest_file exApp0 ⟨7⟩ (fun _ => .error "bad input")).2.sess
      = exApp0.sess ∧
    (iqr_ingest_file exApp0 ⟨7⟩ (fun _ => .error "bad input")).2.examplePosDescr
      = exApp0.examplePosDescr ∧
    (iqr_ingest_file exApp0 ⟨7⟩ (fun _ => .error "bad input")).2.exampleData
      = ((7 : Uid), (⟨7⟩ : DataElem)) :: exApp0.exampleData ∧
    (iqr_ingest_file exApp0 ⟨7⟩ (fun _ => .error "bad input")).1
      = .error ("Input Error: " ++ "bad input") ∧
    (iqr_refine (initSession 500 4) exRank).2 = initSession 500 4 ∧
    (iqr_refine (initSession 500 4) exRank).2.results
      = (initSession 500 4).results ∧
    (iqr_initialize_route (initSession 500 5) false (fun _ => ∅)).2
      = initSession 500 5 :=
  C2_state_on_failure exApp0 ⟨7⟩ "bad input" (initSession 500 4)
    (initSession 500 5) false (fun _ => ∅) exRank
    "InsufficientLabels: no positive adjudications"
    "InitializationFailure: no positive descriptors to query the NN index with"
    (by rfl) (by rfl)

/-- Claim C6: get-or-create creates at most one session per key.  When the
key is registered, the registry is unchanged and the registered session is
returned; when it is not, exactly one session is added.  The lookup-or-create
is one atomic step under the registry lock (iqr_search.py L768), so two
concurrent callers with the same fresh key serialize into two calls: the
second changes nothing and both receive the same session — hence the
identical session identifier. -/
theorem C6_get_or_create (c : ControllerState) (k : ℕ) (sid : Uid) :
    (get_current_iqr_session (get_current_iqr_session c k sid).2 k sid).2
      = (get_current_iqr_session c k sid).2 ∧
    (get_current_iqr_session (get_current_iqr_session c k sid).2 k sid).1
      = (get_current_iqr_session c k sid).1 ∧
    (∃ s, (get_current_iqr_session c k sid).1 = some s) ∧
    (if c.hasSessionUuid sid = true
     then (get_current_iqr_session c k sid).2 = c
     else (get_current_iqr_session c k sid).2.sessions.length
        = c.sessions.length + 1) := by
  cases hB : c.hasSessionUuid sid with
  | true =>
    obtain ⟨s0, hs⟩ := Option.isSome_iff_exists.mp
      (by rwa [ControllerState.hasSessionUuid] at hB)
    have hget : get_current_iqr_session c k sid = (some s0, c) := by
      simp [get_current_iqr_session, hB, ControllerState.getSession, hs]
    simp [hget, hB]
  | false =>
    have hsu : (initSession k sid).suuid = sid := rfl
    have hlook : (c.addSession (initSession k sid)).getSession sid
        = some (initSession k sid) := by
      rw [ControllerState.getSession, ControllerState.addSession, hsu]
      simp [List.lookup]
    have hB' : (c.addSession (initSession k sid)).hasSessionUuid sid = true := by
      rw [ControllerState.hasSessionUuid]
      rw [show (c.addSession (initSession k sid)).sessions.lookup sid
          = some (initSession k sid) from hlook]
      rfl
    have hget1 : get_current_iqr_session c k sid
        = (some (initSession k sid), c.addSession (initSession k sid)) := by
      rw [get_current_iqr_session, hB]
      simpa using hlook
    have hget2 : get_current_iqr_session (c.addSession (initSession k sid)) k sid
        = (some (initSession k sid), c.addSession (initSession k sid)) := by
      rw [get_current_iqr_session, hB']
      simpa using hlook
    refine ⟨?_, ?_, ⟨initSession k sid, ?_⟩, ?_⟩
    · rw [hget1]
      show (get_current_iqr_session (c.addSession (initSession k sid)) k sid).2
          = c.addSession (initSession k sid)
      rw [hget2]
    · rw [hget1]
      show (get_current_iqr_session (c.addSession (initSession k sid)) k sid).1
          = some (initSession k sid)
      rw [hget2]
    · rw [hget1]
    · rw [if_neg (by decide : ¬(false = true)), hget1]
      rw [show ((some (initSession k sid), c.addSession (initSession k sid)) :
          Option IqrSessionState × ControllerState).2
        = c.addSession (initSession k sid) from rfl]
      rw [ControllerState.addSession]
      exact List.length_cons _ _

/-- Claim C7: along the lock-event trace of a session operation the registry
(controller) lock and the session lock are never held at the same time — the
registry lock is released when `get_current_iqr_session` returns, before the
session lock is acquired for the operation's body. -/
theorem C7_locks_never_nested (n : ℕ) :
    ¬(regHeld (sessionOpLockTrace.take n) = true ∧
      sessHeld (sessionOpLockTrace.take n) = true) := by
  match n with
  | 0 => decide
  | 1 => decide
  | 2 => decide
  | 3 => decide
  | (m + 4) =>
    rw [List.take_of_length_le (by simp [sessionOpLockTrace])]
    decide

/-- Claim C8: reset clears both adjudication sets, the working index and the
stored ordered result — a subsequent ordered-results call returns the empty
sequence for any requested bounds — clears the session's example maps, and
leaves the session identifier unchanged, reporting success. -/
theorem C8_reset_clears (st : AppSessionState) (i j : Option ℤ) :
    (reset_iqr_session st).2.sess.positives = ∅ ∧
    (reset_iqr_session st).2.sess.negatives = ∅ ∧
    (reset_iqr_session st).2.sess.workingIndex = ∅ ∧
    (reset_iqr_session st).2.sess.results = none ∧
    (reset_iqr_session st).2.sess.suuid = st.sess.suuid ∧
    (reset_iqr_session st).2.exampleData = [] ∧
    (reset_iqr_session st).2.examplePosDescr = [] ∧
    get_ordered_results (reset_iqr_session st).2.sess i j = [] ∧
    (reset_iqr_session st).1.success = true := by
  refine ⟨rfl, rfl, rfl, rfl, rfl, rfl, rfl, ?_, rfl⟩
  rcases i with _ | iv <;> rcases j with _ | jv <;>
    simp [get_ordered_results, reset_iqr_session, IqrSessionState.reset,
      IqrSessionState.ordered_results, pySlice]

theorem pySlice_eq_claimSlice {α : Type} (i j : ℤ) (hi : 0 ≤ i) (hj : 0 ≤ j)
    (l : List α) : pySlice i j l = claimSlice i j l := by
  rw [pySlice, claimSlice, pyIndex, pyIndex,
    if_neg (not_lt.mpr hj), if_neg (not_lt.mpr hi)]
  have htake : l.take (min j.toNat l.length) = l.take j.toNat := by
    rw [List.take_eq_take]
    omega
  rw [htake]
  rcases Nat.le_total i.toNat l.length with hle | hle
  · rw [min_eq_left hle]
  · rw [min_eq_right hle]
    have h1 : (l.take j.toNat).length ≤ l.length := by
      rw [List.length_take]
      omega
    rw [List.drop_eq_nil_of_le h1, List.drop_eq_nil_of_le (le_trans h1 hle)]

theorem claimSlice_length {α : Type} (i j : ℤ) (l : List α) :
    (claimSlice i j l).length = min j.toNat l.length - i.toNat := by
  rw [claimSlice, List.length_drop, List.length_take]

/-- Claim C9 counterexample: the claim quantifies over every requested `i`,
`j` with only `0 ≤ i` required, but for the negative bound `j = -1` against a
2-entry stored result the route returns a non-empty slice (Python counts a
negative index from the end) while the set of positions in `[0, -1)` clipped
to the length is empty. -/
theorem C9_counterexample :
    get_ordered_results exResultsSession (some 0) (some (-1))
      ≠ claimSlice 0 (-1) (exResultsSession.ordered_results.getD []) := by
  decide

/-- Claim C9 (amended): for requested indices `0 ≤ i` and `0 ≤ j` the
ordered-results route returns exactly the entries at positions `[i, j)`
clipped to the available length `L`: `j` beyond the end just yields the
available entries with no error and `i ≥ L` yields the empty sequence (the
returned length is `min j L - i`, truncated), and with no stored refine
result the returned sequence is empty; a negative `j`, however, addresses
positions counted from the end of the sequence (Python slice semantics). -/
theorem C9_slice_clipped (s : IqrSessionState) (i j : ℤ)
    (hi : 0 ≤ i) (hj : 0 ≤ j) :
    get_ordered_results s (some i) (some j)
      = claimSlice i j (s.ordered_results.getD []) ∧
    (get_ordered_results s (some i) (some j)).length
      = min j.toNat (s.ordered_results.getD []).length - i.toNat ∧
    get_ordered_results { s with results := none } (some i) (some j) = [] := by
  have h1 : get_ordered_results s (some i) (some j)
      = pySlice i j (s.ordered_results.getD []) := rfl
  refine ⟨?_, ?_, ?_⟩
  · rw [h1, pySlice_eq_claimSlice i j hi hj]
  · rw [h1, pySlice_eq_claimSlice i j hi hj, claimSlice_length]
  · have h2 : get_ordered_results { s with results := none } (some i) (some j)
        = pySlice i j [] := rfl
    rw [h2, pySlice_eq_claimSlice i j hi hj, claimSlice]
    simp

/-- Witness for C9 (amended) at a concrete input: the 2-entry stored result,
`i = 1`, `j = 5` (beyond the end). -/
theorem C9_slice_clipped_witness :
    get_ordered_results exResultsSession (some 1) (some 5)
      = claimSlice 1 5 (exResultsSession.ordered_results.getD []) ∧
    (get_ordered_results exResultsSession (some 1) (some 5)).length
      = min (5 : ℤ).toNat (exResultsSession.ordered_results.getD []).length
        - (1 : ℤ).toNat ∧
    get_ordered_results { exResultsSession with results := none }
        (some 1) (some 5) = [] :=
  C9_slice_clipped exResultsSession 1 5 (by decide) (by decide)

/-- Claim C10: the random-order route returns a permutation of exactly the
identifiers currently in the session's working index — the same multiset, so
nothing added or removed and no duplicates — and an identifier appears in the
output iff it is in the working index; identifiers present only in the
session's uploaded example data are therefore never included. -/
theorem C10_random_uids_perm (s : IqrSessionState) (sh : List Uid → List Uid)
    (hsh : ∀ l, (sh l).Perm l) :
    (get_random_uids s sh).Perm (ascUids s.workingIndex) ∧
    (∀ u, u ∈ get_random_uids s sh ↔ u ∈ s.workingIndex) ∧
    (get_random_uids s sh).Nodup := by
  have hp : (get_random_uids s sh).Perm (ascUids s.workingIndex) :=
    hsh (ascUids s.workingIndex)
  refine ⟨hp, ?_, ?_⟩
  · intro u
    rw [List.Perm.mem_iff hp, ascUids_mem]
  · exact (List.Perm.nodup_iff hp).mpr (ascUids_nodup _)

/-- Witness for C10 at a concrete input: the session with working index
`{1, 2}` and the identity shuffle. -/
theorem C10_random_uids_perm_witness :
    (get_random_uids exResultsSession id).Perm
      (ascUids exResultsSession.workingIndex) ∧
    (∀ u, u ∈ get_random_uids exResultsSession id
      ↔ u ∈ exResultsSession.workingIndex) ∧
    (get_random_uids exResultsSession id).Nodup :=
  C10_random_uids_perm exResultsSession id (fun l => List.Perm.refl l)
